import Mathlib

/-!
Verification development for the civic-data-hub repository.

The development shallowly embeds the two core subsystems:

* `src/api/main.py` — the address-resolution pipeline (geocode cache,
  spatial containment lookup, official aggregation, single and bulk
  lookup endpoints).
* `src/sync/core.py` — the multi-source synchronization engine
  (`DataSync`: fetchers, district/official merge by SQL upsert, and the
  `data_sources` status row).

Modelling conventions:

* The Postgres tables (`address_cache`, `districts`, `officials`,
  `data_sources`) are modelled as lists of row structures inside a `Db`
  record; each SQL statement of the source becomes an explicit list
  transformation that mirrors the statement's `ON CONFLICT` clause and
  `SET` list field by field.
* Geographic coordinates are carried around but never computed with, so
  a point is an opaque pair of integers; geometry values (`boundary`,
  the GeoJSON input) are opaque strings, and the PostGIS containment
  test `ST_Contains` is an uninterpreted parameter of the lookup
  functions.
* Timestamps (`CURRENT_TIMESTAMP`, `datetime.now()`) are `Nat` seconds
  supplied as explicit arguments; `INTERVAL '30 days'` is the constant
  `thirtyDays`.
* External collaborators (the geocoder, the OpenStates HTTP endpoint)
  are parameters: the geocoder is a function from the raw address to an
  outcome, the HTTP fetch is parameterized by the response received.
* `fastapi.HTTPException` is the error type `HErr` (status code and
  detail string); Python exceptions escaping a block are modelled with
  `Except` / result pairs.
-/

/-- A WGS84 point. Coordinates are produced by the geocoder and only
ever stored and compared, never computed with, so they are modelled as
an opaque pair of integers. -/
structure GeoPoint where
  lat : Int
  lon : Int
deriving DecidableEq

/-- A row of the `address_cache` table: raw address, normalized address
(the conflict key), location, and expiry timestamp. -/
structure CacheRow where
  address : String
  normalized_address : String
  location : GeoPoint
  expires_at : Nat
deriving DecidableEq

/-- A row of the `districts` table. `id` is the serial primary key that
`officials.district_id` references; `boundary` is the stored geometry,
kept opaque. -/
structure DistrictRow where
  id : Nat
  district_type : String
  state_fips : String
  district_code : String
  name : String
  boundary : String
  updated_at : Nat
deriving DecidableEq

/-- A row of the `officials` table, with the `(source_type, source_id)`
conflict key used by `update_officials`. -/
structure OfficialRow where
  id : Nat
  full_name : String
  office_title : String
  district_id : Nat
  party : Option String
  email : Option String
  phone : Option String
  website : Option String
  term_start : String
  term_end : String
  source_type : String
  source_id : String
  updated_at : Nat
deriving DecidableEq

/-- A row of the `data_sources` table (sync status per source name). -/
structure DataSourceRow where
  source_name : String
  last_sync : Nat
  status : String
  error_message : Option String
deriving DecidableEq

/-- The database state: the four tables touched by the core. -/
structure Db where
  address_cache : List CacheRow
  districts : List DistrictRow
  officials : List OfficialRow
  data_sources : List DataSourceRow
deriving DecidableEq

/-- A fetched district record, with the field names used by
`update_districts` (`district['type']`, `['state']`, `['code']`,
`['name']`, `['geometry']`). -/
structure DistrictRec where
  type : String
  state : String
  code : String
  name : String
  geometry : String
deriving DecidableEq

/-- A fetched official record, with the field names used by
`update_officials`. -/
structure OfficialRec where
  name : String
  title : String
  district_id : Nat
  party : Option String
  email : Option String
  phone : Option String
  website : Option String
  term_start : String
  term_end : String
  source : String
  source_id : String
deriving DecidableEq

/-- An HTTP error as raised by `fastapi.HTTPException`. -/
structure HErr where
  status : Nat
  detail : String
deriving DecidableEq

/-! ## Address normalization

The lookup path normalizes the raw address with Python's
`address.lower()` (main.py lines 75, 92, 113); lowercasing is modelled
with Lean's character-wise `String.toLower`. -/

/-- Normalization of a raw address, as performed inline by
`lookup_representatives`: `address.lower()`. -/
def normalizeAddress (address : String) : String :=
  address.toLower

theorem char_toNat_ofNat_valid {n : Nat} (h : n.isValidChar) :
    (Char.ofNat n).toNat = n := by
  rw [Char.ofNat, dif_pos h]
  rfl

theorem char_toLower_idem (c : Char) : c.toLower.toLower = c.toLower := by
  unfold Char.toLower
  by_cases h : c.toNat ≥ 65 ∧ c.toNat ≤ 90
  · rw [if_pos h]
    have hv : (c.toNat + 32).isValidChar := Or.inl (by omega)
    rw [char_toNat_ofNat_valid hv, if_neg (by omega)]
  · rw [if_neg h, if_neg h]

/-- C9: `normalize` is idempotent. It is deterministic and pure by
construction (a total Lean function of the string alone). -/
theorem normalizeAddress_idempotent (a : String) :
    normalizeAddress (normalizeAddress a) = normalizeAddress a := by
  simp only [normalizeAddress, String.toLower, String.map_eq, List.map_map]
  exact congrArg String.mk (List.map_congr_left fun c _ => char_toLower_idem c)

/-! ## The lookup pipeline (src/api/main.py)

`lookup_representatives` is decomposed exactly along the source:
`geocode_address` (lines 55-63), the cache-check / geocode / cache-write
block (lines 70-92, `resolveLocation` below), the district containment
query (lines 95-99) and the official aggregation plus response assembly
(lines 101-116). -/

/-- Outcome of one call to the external geocoder (`geopy` `Nominatim`):
a location, no match (`location` falsy), or `GeocoderTimedOut`. -/
inductive GeocodeOutcome where
  | found (lat lon : Int)
  | noMatch
  | timedOut
deriving DecidableEq

/-- The interval `'30 days'` used for `expires_at`, in seconds. -/
def thirtyDays : Nat := 30 * 24 * 60 * 60

/-- Model of `geocode_address` (main.py lines 55-63): geocode, raise 404
on no match, 408 on timeout. The geocoder itself is a parameter. -/
def geocode_address (geocoder : String → GeocodeOutcome) (address : String) :
    Except HErr GeoPoint :=
  match geocoder address with
  | .found lat lon => .ok ⟨lat, lon⟩
  | .noMatch => .error ⟨404, "Address not found"⟩
  | .timedOut => .error ⟨408, "Geocoding service timeout"⟩

/-- The cache read (main.py lines 71-75): first live row whose
`normalized_address` matches, where live means `expires_at` strictly
after now. -/
def cacheLookup (now : Nat) (cache : List CacheRow) (norm : String) :
    Option CacheRow :=
  cache.find? fun r => decide (r.normalized_address = norm ∧ now < r.expires_at)

/-- The cache write (main.py lines 85-92): `INSERT ... ON CONFLICT
(normalized_address) DO UPDATE SET location, expires_at` — the stored
raw `address` column is not part of the `SET` list. -/
def upsertCache (cache : List CacheRow) (address norm : String) (p : GeoPoint)
    (expires : Nat) : List CacheRow :=
  if cache.any fun r => decide (r.normalized_address = norm) then
    cache.map fun r =>
      if r.normalized_address = norm then
        { r with location := p, expires_at := expires }
      else r
  else
    cache ++ [⟨address, norm, p, expires⟩]

/-- The cache-or-geocode block of `lookup_representatives` (main.py
lines 70-92): on a live cache hit return the stored location unchanged;
on a miss geocode (errors propagate) and upsert a cache entry expiring
thirty days from now. The returned `Db` is the state after the block —
each statement commits on its own, so it is updated even when a later
step of the endpoint fails. -/
def resolveLocation (geocoder : String → GeocodeOutcome) (now : Nat) (db : Db)
    (address : String) : Except HErr GeoPoint × Db :=
  match cacheLookup now db.address_cache (normalizeAddress address) with
  | some row => (.ok row.location, db)
  | none =>
    match geocode_address geocoder address with
    | .error e => (.error e, db)
    | .ok p =>
      (.ok p,
        { db with
            address_cache :=
              upsertCache db.address_cache address (normalizeAddress address) p
                (now + thirtyDays) })

/-- The district containment query (main.py lines 95-99):
`WHERE ST_Contains(boundary, point)` with `ST_Contains` uninterpreted. -/
def districtsContaining (contains : String → GeoPoint → Bool)
    (rows : List DistrictRow) (p : GeoPoint) : List DistrictRow :=
  rows.filter fun d => contains d.boundary p

/-- The projection of a district row selected by the lookup endpoint. -/
structure DistrictOut where
  id : Nat
  name : String
  district_type : String
  state_fips : String
  district_code : String
deriving DecidableEq

/-- The projection of an official row selected by the lookup endpoint. -/
structure OfficialOut where
  id : Nat
  full_name : String
  office_title : String
  party : Option String
  email : Option String
  phone : Option String
  website : Option String
deriving DecidableEq

/-- The response body of `/api/v1/lookup`. -/
structure LookupResponse where
  address : String
  normalized_address : String
  districts : List DistrictOut
  officials : List OfficialOut
deriving DecidableEq

/-- District row projection used in the lookup response. -/
def projDistrict (d : DistrictRow) : DistrictOut :=
  ⟨d.id, d.name, d.district_type, d.state_fips, d.district_code⟩

/-- Official row projection used in the lookup response. -/
def projOfficial (o : OfficialRow) : OfficialOut :=
  ⟨o.id, o.full_name, o.office_title, o.party, o.email, o.phone, o.website⟩

/-- Model of `lookup_representatives` (main.py lines 66-116): resolve
the location (cache or geocoder), find containing districts, 404 when
none, aggregate officials of those districts, build the response. The
second component is the database state after the request, also on
error. -/
def lookup_representatives (geocoder : String → GeocodeOutcome)
    (contains : String → GeoPoint → Bool) (now : Nat) (db : Db)
    (address : String) : Except HErr LookupResponse × Db :=
  match resolveLocation geocoder now db address with
  | (.error e, db1) => (.error e, db1)
  | (.ok p, db1) =>
    let ds := districtsContaining contains db1.districts p
    if ds.isEmpty then
      (.error ⟨404, "No districts found for this address"⟩, db1)
    else
      let os := db1.officials.filter fun o => ds.any fun d => d.id = o.district_id
      (.ok ⟨address, normalizeAddress address, ds.map projDistrict,
            os.map projOfficial⟩, db1)

/-- One item of the bulk-lookup result list. -/
structure BulkItem where
  address : String
  result : Option LookupResponse
  error : Option String
deriving DecidableEq

/-- The loop body of `bulk_lookup_representatives` (main.py lines
160-169): each address is looked up in turn against the evolving
database state; an `HTTPException` is captured as the item's error
detail and the loop continues. -/
def bulkCore (geocoder : String → GeocodeOutcome)
    (contains : String → GeoPoint → Bool) (now : Nat) :
    Db → List String → List BulkItem × Db
  | db, [] => ([], db)
  | db, address :: rest =>
    match lookup_representatives geocoder contains now db address with
    | (.ok r, db1) =>
      (⟨address, some r, none⟩ :: (bulkCore geocoder contains now db1 rest).fst,
        (bulkCore geocoder contains now db1 rest).snd)
    | (.error e, db1) =>
      (⟨address, none, some e.detail⟩ ::
          (bulkCore geocoder contains now db1 rest).fst,
        (bulkCore geocoder contains now db1 rest).snd)

/-- Model of `bulk_lookup_representatives` (main.py lines 155-171). The
declarative constraint `Query(..., max_length=100)` is validated by the
framework before the handler body runs: a list of more than 100
addresses is rejected up front and no address is looked up. -/
def bulk_lookup_representatives (geocoder : String → GeocodeOutcome)
    (contains : String → GeoPoint → Bool) (now : Nat) (db : Db)
    (addresses : List String) : Except String (List BulkItem × Db) :=
  if addresses.length > 100 then
    .error "List should have at most 100 items"
  else
    .ok (bulkCore geocoder contains now db addresses)

/-! ## The synchronization engine (src/sync/core.py)

`DataSync` configuration and pooling are connection plumbing; what is
embedded is the data behaviour: the two fetchers, the two merge loops
and `sync_all`'s status bookkeeping. The store enforces the foreign key
`officials.district_id → districts.id`; that constraint is not under
`src/` (no schema file is in the repository). Modelled from the spec:
every Official must reference a District that already exists at upsert
time, so an insert with an unresolvable district reference fails. -/

/-- An HTTP interaction as seen by a fetcher: either a response with a
status code and decoded JSON body, or a transport error caught by the
surrounding `except`. -/
inductive HttpResult (α : Type) where
  | response (status : Nat) (body : α)
  | transportError (msg : String)

/-- Model of `fetch_openstates_data` (core.py lines 24-39): body on
status 200, empty list on any other status, empty list on any raised
transport error — the function itself never raises. -/
def fetch_openstates_data (r : HttpResult (List OfficialRec)) :
    List OfficialRec :=
  match r with
  | .response status body => if status = 200 then body else []
  | .transportError _ => []

/-- Model of `fetch_census_data` (core.py lines 41-45): the body is a
bare `pass`, so the coroutine returns Python `None` — not a list. -/
def fetch_census_data : Option (List DistrictRec) :=
  none

/-- The next serial `districts.id`: one more than the largest id in the
table (the table never shrinks). -/
def freshDistrictId (rows : List DistrictRow) : Nat :=
  rows.foldr (fun r m => max r.id m) 0 + 1

/-- One district upsert (core.py lines 51-60): `INSERT INTO districts
... ON CONFLICT (district_code) DO UPDATE SET name, boundary,
updated_at` — the conflict target is `district_code` alone, and the
`SET` list does not touch `district_type` or `state_fips`. -/
def upsertDistrict (now : Nat) (rows : List DistrictRow) (d : DistrictRec) :
    List DistrictRow :=
  if rows.any fun r => decide (r.district_code = d.code) then
    rows.map fun r =>
      if r.district_code = d.code then
        { r with name := d.name, boundary := d.geometry, updated_at := now }
      else r
  else
    rows ++ [⟨freshDistrictId rows, d.type, d.state, d.code, d.name,
             d.geometry, now⟩]

/-- Model of `update_districts` (core.py lines 47-60): one upsert per
fetched record, in order. -/
def update_districts (now : Nat) (rows : List DistrictRow)
    (districts : List DistrictRec) : List DistrictRow :=
  districts.foldl (upsertDistrict now) rows

/-- The next serial `officials.id`. -/
def freshOfficialId (rows : List OfficialRow) : Nat :=
  rows.foldr (fun r m => max r.id m) 0 + 1

/-- Whether a district with the given serial id exists (the foreign-key
check performed by the store on insert). -/
def districtIdExists (districts : List DistrictRow) (i : Nat) : Bool :=
  districts.any fun d => d.id = i

/-- One official upsert (core.py lines 66-86): `INSERT INTO officials
... ON CONFLICT (source_type, source_id) DO UPDATE SET full_name,
office_title, party, email, phone, website, updated_at`. On conflict
the stored `district_id`, `term_start` and `term_end` are kept. On a
fresh insert the store checks the `district_id` foreign key and the
statement fails when it does not resolve (modelled from the spec; the
schema is not under src/). -/
def upsertOfficial (now : Nat) (districts : List DistrictRow)
    (rows : List OfficialRow) (o : OfficialRec) :
    Except String (List OfficialRow) :=
  if rows.any fun r => decide (r.source_type = o.source ∧ r.source_id = o.source_id) then
    .ok (rows.map fun r =>
      if r.source_type = o.source ∧ r.source_id = o.source_id then
        { r with
            full_name := o.name, office_title := o.title, party := o.party,
            email := o.email, phone := o.phone, website := o.website,
            updated_at := now }
      else r)
  else if districtIdExists districts o.district_id then
    .ok (rows ++ [⟨freshOfficialId rows, o.name, o.title, o.district_id,
                  o.party, o.email, o.phone, o.website, o.term_start,
                  o.term_end, o.source, o.source_id, now⟩])
  else
    .error ("foreign key violation: district " ++ toString o.district_id ++
            " does not exist")

/-- Model of `update_officials` (core.py lines 62-86): one upsert per
record, in order; each statement commits on its own, so a failing
statement leaves the rows merged so far in place, stops the loop and
propagates the error. -/
def update_officials (now : Nat) (districts : List DistrictRow) :
    List OfficialRow → List OfficialRec → List OfficialRow × Option String
  | rows, [] => (rows, none)
  | rows, o :: os =>
    match upsertOfficial now districts rows o with
    | .ok rows1 => update_officials now districts rows1 os
    | .error e => (rows, some e)

/-- The run-start status upsert (core.py lines 95-102): `INSERT INTO
data_sources (source_name, last_sync, status) ... ON CONFLICT
(source_name) DO UPDATE SET last_sync, status` — `error_message` is
neither inserted (defaults to NULL on a fresh row) nor updated. -/
def upsertDataSourceRunning (rows : List DataSourceRow) (name : String)
    (t : Nat) : List DataSourceRow :=
  if rows.any fun r => decide (r.source_name = name) then
    rows.map fun r =>
      if r.source_name = name then { r with last_sync := t, status := "running" }
      else r
  else
    rows ++ [⟨name, t, "running", none⟩]

/-- The success update (core.py lines 114-118): `UPDATE data_sources SET
status = 'success', last_sync = now WHERE source_name = name` —
`error_message` is not touched. -/
def setDataSourceSuccess (rows : List DataSourceRow) (name : String) (t : Nat) :
    List DataSourceRow :=
  rows.map fun r =>
    if r.source_name = name then { r with status := "success", last_sync := t }
    else r

/-- The error update (core.py lines 124-128): `UPDATE data_sources SET
status = 'error', error_message = msg WHERE source_name = name` —
`last_sync` is not touched. -/
def setDataSourceError (rows : List DataSourceRow) (name : String)
    (msg : String) : List DataSourceRow :=
  rows.map fun r =>
    if r.source_name = name then { r with status := "error", error_message := some msg }
    else r

/-- Model of `sync_all` (core.py lines 88-131), after the fetch phase:
the fetched lists are passed in (`census` is an `Option` because
`fetch_census_data` returns `None`). Steps: upsert the `full_sync`
status row to running; merge districts — iterating `None` raises
`TypeError`, caught by the `except` which records the error; merge
officials, recording an error if a statement fails, otherwise record
success. A failure after partial merging keeps the already-merged rows
(each statement commits on its own). -/
def sync_all (t_start t_end : Nat) (openstates : List OfficialRec)
    (census : Option (List DistrictRec)) (db : Db) : Db :=
  let db0 := { db with
    data_sources := upsertDataSourceRunning db.data_sources "full_sync" t_start }
  match census with
  | none =>
    { db0 with
        data_sources := setDataSourceError db0.data_sources "full_sync"
          "TypeError: NoneType object is not iterable" }
  | some ds =>
    let db1 := { db0 with districts := update_districts t_start db0.districts ds }
    match update_officials t_start db1.districts db1.officials openstates with
    | (rows, none) =>
      { db1 with
          officials := rows,
          data_sources := setDataSourceSuccess db1.data_sources "full_sync" t_end }
    | (rows, some e) =>
      { db1 with
          officials := rows,
          data_sources := setDataSourceError db1.data_sources "full_sync" e }

/-! ## A generic upsert theory

Both merge loops are instances of one pattern: a list of rows with a
key projection, where a record whose key is present overwrites a fixed
set of mutable fields of every matching row, and a record whose key is
absent is appended as a fresh row. `UpsertSpec` bundles the pattern
with the algebraic facts the instances satisfy; the idempotence of the
merge phase (claim C4) is proved once at this level and transported to
`update_districts` / `update_officials` through erasure of the
`updated_at` timestamp. -/

theorem list_any_congr {α : Type} {l : List α} {p q : α → Bool}
    (h : ∀ a ∈ l, p a = q a) : l.any p = l.any q := by
  induction l with
  | nil => rfl
  | cons a l ih =>
    simp only [List.any_cons, h a (List.mem_cons_self a l),
      ih fun b hb => h b (List.mem_cons_of_mem a hb)]

/-- An upsert pattern: rows `ρ` with key projection `key`, records `δ`
with key projection `rkey`, an overwrite of the mutable fields and a
fresh-row insertion, together with the facts that overwriting keeps the
key, an inserted row carries the record's key, overwriting twice equals
overwriting once, overwriting a row just inserted from the same record
changes nothing, and the fresh row built for a record does not depend
on overwrites applied to the existing rows. -/
structure UpsertSpec (ρ δ κ : Type) [DecidableEq κ] where
  key : ρ → κ
  rkey : δ → κ
  ovw : δ → ρ → ρ
  ins : List ρ → δ → ρ
  hkey_ovw : ∀ d r, key (ovw d r) = key r
  hkey_ins : ∀ rows d, key (ins rows d) = rkey d
  hovw_ovw : ∀ d d2 r, ovw d (ovw d2 r) = ovw d r
  hovw_ins : ∀ rows d, ovw d (ins rows d) = ins rows d
  hins_map : ∀ rows d d2,
    ins (rows.map fun r => if key r = rkey d2 then ovw d2 r else r) d = ins rows d

namespace UpsertSpec

variable {ρ δ κ : Type} [DecidableEq κ] (U : UpsertSpec ρ δ κ)

/-- Whether some row carries key `k`. -/
def hasKey (rows : List ρ) (k : κ) : Bool :=
  rows.any fun r => decide (U.key r = k)

/-- Overwrite every row matching the record's key. -/
def owmap (rows : List ρ) (d : δ) : List ρ :=
  rows.map fun r => if U.key r = U.rkey d then U.ovw d r else r

/-- One upsert step. -/
def gUpsert (rows : List ρ) (d : δ) : List ρ :=
  if U.hasKey rows (U.rkey d) then U.owmap rows d else rows ++ [U.ins rows d]

/-- A whole merge run: upserts folded over the record list in order. -/
def gUpdate (rows : List ρ) (ds : List δ) : List ρ :=
  ds.foldl U.gUpsert rows

theorem gUpdate_nil (rows : List ρ) : U.gUpdate rows [] = rows := rfl

theorem gUpdate_cons (rows : List ρ) (d : δ) (ds : List δ) :
    U.gUpdate rows (d :: ds) = U.gUpdate (U.gUpsert rows d) ds := rfl

theorem hasKey_owmap (rows : List ρ) (d : δ) (k : κ) :
    U.hasKey (U.owmap rows d) k = U.hasKey rows k := by
  unfold hasKey owmap
  rw [List.any_map]
  apply list_any_congr
  intro r _
  by_cases hr : U.key r = U.rkey d <;> simp [Function.comp, hr, U.hkey_ovw]

theorem hasKey_gUpsert (rows : List ρ) (d : δ) (k : κ) :
    U.hasKey (U.gUpsert rows d) k = (U.hasKey rows k || decide (U.rkey d = k)) := by
  unfold gUpsert
  by_cases h : U.hasKey rows (U.rkey d) = true
  · rw [if_pos h, hasKey_owmap]
    by_cases hk : U.rkey d = k
    · subst hk
      simp [h]
    · simp [hk]
  · rw [if_neg h]
    unfold hasKey
    rw [List.any_append]
    simp [U.hkey_ins]

theorem hasKey_gUpsert_self (rows : List ρ) (d : δ) :
    U.hasKey (U.gUpsert rows d) (U.rkey d) = true := by
  simp [hasKey_gUpsert]

theorem hasKey_gUpsert_mono (rows : List ρ) (d : δ) (k : κ)
    (h : U.hasKey rows k = true) : U.hasKey (U.gUpsert rows d) k = true := by
  simp [hasKey_gUpsert, h]

theorem hasKey_gUpdate_mono (ds : List δ) :
    ∀ rows k, U.hasKey rows k = true → U.hasKey (U.gUpdate rows ds) k = true := by
  induction ds with
  | nil => intro rows k h; exact h
  | cons d ds ih =>
    intro rows k h
    rw [gUpdate_cons]
    exact ih _ k (U.hasKey_gUpsert_mono rows d k h)

theorem hasKey_gUpdate_of_mem (ds : List δ) :
    ∀ rows d, d ∈ ds → U.hasKey (U.gUpdate rows ds) (U.rkey d) = true := by
  induction ds with
  | nil => intro rows d h; cases h
  | cons d2 ds ih =>
    intro rows d h
    rw [gUpdate_cons]
    rcases List.mem_cons.mp h with h | h
    · subst h
      exact U.hasKey_gUpdate_mono ds _ _ (U.hasKey_gUpsert_self rows d)
    · exact ih _ d h


theorem gUpsert_collapse (rows : List ρ) (d d2 : δ)
    (hk : U.hasKey rows (U.rkey d) = true) (he : U.rkey d2 = U.rkey d) :
    U.gUpsert (U.gUpsert rows d) d2 = U.gUpsert rows d2 := by
  have hk2 : U.hasKey rows (U.rkey d2) = true := he.symm ▸ hk
  unfold gUpsert
  rw [if_pos hk, if_pos hk2, hasKey_owmap, if_pos hk2]
  unfold owmap
  rw [List.map_map]
  apply List.map_congr_left
  intro r _
  simp only [Function.comp]
  by_cases hr : U.key r = U.rkey d
  · have hr2 : U.key r = U.rkey d2 := hr.trans he.symm
    rw [if_pos hr, U.hkey_ovw, if_pos hr2, if_pos hr2, U.hovw_ovw]
  · have hr2 : ¬ U.key r = U.rkey d2 := fun h => hr (h.trans he)
    rw [if_neg hr]

theorem gUpsert_comm (rows : List ρ) (d d2 : δ)
    (hk : U.hasKey rows (U.rkey d) = true) (hne : U.rkey d2 ≠ U.rkey d) :
    U.gUpsert (U.gUpsert rows d) d2 = U.gUpsert (U.gUpsert rows d2) d := by
  by_cases h2 : U.hasKey rows (U.rkey d2) = true
  · unfold gUpsert
    rw [if_pos hk, if_pos h2, hasKey_owmap, hasKey_owmap, if_pos h2, if_pos hk]
    unfold owmap
    rw [List.map_map, List.map_map]
    apply List.map_congr_left
    intro r _
    simp only [Function.comp]
    by_cases hr : U.key r = U.rkey d
    · have hr2 : ¬ U.key r = U.rkey d2 := fun h => hne (h.symm.trans hr)
      rw [if_pos hr, if_neg hr2, U.hkey_ovw, if_neg hr2, if_pos hr]
    · by_cases hr2 : U.key r = U.rkey d2
      · rw [if_neg hr, if_pos hr2, U.hkey_ovw, if_neg hr]
      · rw [if_neg hr, if_neg hr2, if_neg hr]
  · unfold gUpsert
    rw [if_pos hk, hasKey_owmap, if_neg h2, if_neg h2]
    have hk1 : U.hasKey (rows ++ [U.ins rows d2]) (U.rkey d) = true := by
      unfold hasKey at hk ⊢
      rw [List.any_append]
      simp [hk]
    rw [if_pos hk1]
    unfold owmap
    rw [List.map_append]
    have hins : [U.ins rows d2].map
        (fun r => if U.key r = U.rkey d then U.ovw d r else r) = [U.ins rows d2] := by
      have hne2 : ¬ U.key (U.ins rows d2) = U.rkey d := by
        rw [U.hkey_ins]
        exact hne
      simp only [List.map_cons, List.map_nil, if_neg hne2]
    rw [hins, U.hins_map rows d2 d]

/-- Every row of `rows` carrying the record's key already carries the
record's mutable fields. -/
def Fixed (d : δ) (rows : List ρ) : Prop :=
  ∀ r ∈ rows, U.key r = U.rkey d → U.ovw d r = r

theorem fixed_gUpsert_self (rows : List ρ) (d : δ) :
    U.Fixed d (U.gUpsert rows d) := by
  unfold gUpsert
  by_cases h : U.hasKey rows (U.rkey d) = true
  · rw [if_pos h]
    intro r hr hkey
    unfold owmap at hr
    obtain ⟨r0, _, rfl⟩ := List.mem_map.mp hr
    by_cases h0 : U.key r0 = U.rkey d
    · rw [if_pos h0, U.hovw_ovw]
    · rw [if_neg h0] at hkey
      exact absurd hkey h0
  · rw [if_neg h]
    intro r hr hkey
    rcases List.mem_append.mp hr with hmem | hmem
    · exfalso
      apply h
      unfold hasKey
      rw [List.any_eq_true]
      exact ⟨r, hmem, by simp [hkey]⟩
    · rw [List.mem_singleton.mp hmem]
      exact U.hovw_ins rows d

theorem fixed_gUpsert_preserve (rows : List ρ) (d d2 : δ)
    (hne : U.rkey d2 ≠ U.rkey d) (hf : U.Fixed d rows) :
    U.Fixed d (U.gUpsert rows d2) := by
  unfold gUpsert
  by_cases h : U.hasKey rows (U.rkey d2) = true
  · rw [if_pos h]
    intro r hr hkey
    unfold owmap at hr
    obtain ⟨r0, hr0, rfl⟩ := List.mem_map.mp hr
    by_cases h0 : U.key r0 = U.rkey d2
    · rw [if_pos h0] at hkey
      rw [U.hkey_ovw] at hkey
      exact absurd (h0.symm.trans hkey) hne
    · rw [if_neg h0] at hkey ⊢
      exact hf r0 hr0 hkey
  · rw [if_neg h]
    intro r hr hkey
    rcases List.mem_append.mp hr with hmem | hmem
    · exact hf r hmem hkey
    · rw [List.mem_singleton.mp hmem] at hkey ⊢
      rw [U.hkey_ins] at hkey
      exact absurd hkey hne

theorem fixed_gUpdate_preserve (ds : List δ) :
    ∀ rows d, (∀ d2 ∈ ds, U.rkey d2 ≠ U.rkey d) → U.Fixed d rows →
      U.Fixed d (U.gUpdate rows ds) := by
  induction ds with
  | nil => intro rows d _ hf; exact hf
  | cons d2 ds ih =>
    intro rows d hne hf
    rw [gUpdate_cons]
    exact ih _ d (fun d3 h3 => hne d3 (List.mem_cons_of_mem d2 h3))
      (U.fixed_gUpsert_preserve rows d d2 (hne d2 (List.mem_cons_self d2 ds)) hf)

theorem gUpsert_fixed_noop (rows : List ρ) (d : δ)
    (hk : U.hasKey rows (U.rkey d) = true) (hf : U.Fixed d rows) :
    U.gUpsert rows d = rows := by
  unfold gUpsert
  rw [if_pos hk]
  unfold owmap
  have h : rows.map (fun r => if U.key r = U.rkey d then U.ovw d r else r) =
      rows.map id := by
    apply List.map_congr_left
    intro r hr
    by_cases h0 : U.key r = U.rkey d
    · rw [if_pos h0, hf r hr h0]
      rfl
    · rw [if_neg h0]
      rfl
  rw [h, List.map_id]

theorem gUpdate_absorb (ds : List δ) :
    ∀ rows d, U.hasKey rows (U.rkey d) = true →
      (∃ d2 ∈ ds, U.rkey d2 = U.rkey d) →
      U.gUpdate (U.gUpsert rows d) ds = U.gUpdate rows ds := by
  induction ds with
  | nil =>
    intro rows d _ hex
    simp at hex
  | cons d2 ds ih =>
    intro rows d hk hex
    rw [gUpdate_cons, gUpdate_cons]
    by_cases he : U.rkey d2 = U.rkey d
    · rw [U.gUpsert_collapse rows d d2 hk he]
    · obtain ⟨d3, hd3, he3⟩ := hex
      have hd3m : d3 ∈ ds := by
        rcases List.mem_cons.mp hd3 with h | h
        · exact absurd (h ▸ he3) he
        · exact h
      rw [U.gUpsert_comm rows d d2 hk he]
      exact ih (U.gUpsert rows d2) d (U.hasKey_gUpsert_mono rows d2 _ hk)
        ⟨d3, hd3m, he3⟩

/-- Idempotence of a merge run: replaying the same record list over the
result of a first run reproduces it exactly. -/
theorem gUpdate_idem (ds : List δ) :
    ∀ rows, U.gUpdate (U.gUpdate rows ds) ds = U.gUpdate rows ds := by
  induction ds with
  | nil => intro rows; rfl
  | cons d ds ih =>
    intro rows
    rw [gUpdate_cons, gUpdate_cons]
    have hkX : U.hasKey (U.gUpdate (U.gUpsert rows d) ds) (U.rkey d) = true :=
      U.hasKey_gUpdate_mono ds _ _ (U.hasKey_gUpsert_self rows d)
    by_cases hex : ∃ d2 ∈ ds, U.rkey d2 = U.rkey d
    · rw [U.gUpdate_absorb ds _ d hkX hex]
      exact ih (U.gUpsert rows d)
    · have hne : ∀ d2 ∈ ds, U.rkey d2 ≠ U.rkey d := by
        intro d2 h2 hc
        exact hex ⟨d2, h2, hc⟩
      have hfix : U.Fixed d (U.gUpdate (U.gUpsert rows d) ds) :=
        U.fixed_gUpdate_preserve ds _ d hne (U.fixed_gUpsert_self rows d)
      rw [U.gUpsert_fixed_noop _ d hkX hfix]
      exact ih (U.gUpsert rows d)

end UpsertSpec

/-! ## Transport: the concrete merges as upsert instances

`update_districts` and the successful runs of `update_officials` are
related, modulo erasure of the `updated_at` timestamp, to `UpsertSpec`
instances whose overwrite and insert work at timestamp zero. -/

/-- Erase the refreshed timestamp of a district row. -/
def eraseD (r : DistrictRow) : DistrictRow :=
  { r with updated_at := 0 }

/-- Erase the refreshed timestamp of an official row. -/
def eraseO (r : OfficialRow) : OfficialRow :=
  { r with updated_at := 0 }

theorem freshDistrictId_map (rows : List DistrictRow) (f : DistrictRow → DistrictRow)
    (hf : ∀ r, (f r).id = r.id) :
    freshDistrictId (rows.map f) = freshDistrictId rows := by
  unfold freshDistrictId
  rw [List.foldr_map]
  have h : (fun r m => max (f r).id m) = fun (r : DistrictRow) m => max r.id m := by
    funext r m
    rw [hf]
  rw [h]

theorem freshOfficialId_map (rows : List OfficialRow) (f : OfficialRow → OfficialRow)
    (hf : ∀ r, (f r).id = r.id) :
    freshOfficialId (rows.map f) = freshOfficialId rows := by
  unfold freshOfficialId
  rw [List.foldr_map]
  have h : (fun r m => max (f r).id m) = fun (r : OfficialRow) m => max r.id m := by
    funext r m
    rw [hf]
  rw [h]

/-- The district merge as an upsert pattern (timestamp erased): key is
`district_code` alone, overwrite touches `name` and `boundary`, a fresh
row copies all record fields and takes the next serial id. -/
def districtSpec : UpsertSpec DistrictRow DistrictRec String where
  key r := r.district_code
  rkey d := d.code
  ovw d r := { r with name := d.name, boundary := d.geometry, updated_at := 0 }
  ins rows d := ⟨freshDistrictId rows, d.type, d.state, d.code, d.name, d.geometry, 0⟩
  hkey_ovw := fun _ _ => rfl
  hkey_ins := fun _ _ => rfl
  hovw_ovw := fun _ _ _ => rfl
  hovw_ins := fun _ _ => rfl
  hins_map := fun rows d d2 => by
    show (⟨freshDistrictId (rows.map fun r =>
        if r.district_code = d2.code then
          { r with name := d2.name, boundary := d2.geometry, updated_at := 0 }
        else r), d.type, d.state, d.code, d.name, d.geometry, 0⟩ : DistrictRow) =
      ⟨freshDistrictId rows, d.type, d.state, d.code, d.name, d.geometry, 0⟩
    rw [freshDistrictId_map rows _ fun r => ?_]
    by_cases hr : r.district_code = d2.code
    · rw [if_pos hr]
    · rw [if_neg hr]

/-- The official merge as an upsert pattern (timestamp erased): key is
the pair `(source_type, source_id)`, overwrite touches the mutable
contact fields but neither `district_id` nor the term columns. -/
def officialSpec : UpsertSpec OfficialRow OfficialRec (String × String) where
  key r := (r.source_type, r.source_id)
  rkey o := (o.source, o.source_id)
  ovw o r := { r with
    full_name := o.name, office_title := o.title, party := o.party,
    email := o.email, phone := o.phone, website := o.website, updated_at := 0 }
  ins rows o := ⟨freshOfficialId rows, o.name, o.title, o.district_id, o.party,
    o.email, o.phone, o.website, o.term_start, o.term_end, o.source, o.source_id, 0⟩
  hkey_ovw := fun _ _ => rfl
  hkey_ins := fun _ _ => rfl
  hovw_ovw := fun _ _ _ => rfl
  hovw_ins := fun _ _ => rfl
  hins_map := fun rows o o2 => by
    show (⟨freshOfficialId (rows.map fun r =>
        if (r.source_type, r.source_id) = (o2.source, o2.source_id) then
          { r with full_name := o2.name, office_title := o2.title,
                   party := o2.party, email := o2.email, phone := o2.phone,
                   website := o2.website, updated_at := 0 }
        else r), o.name, o.title, o.district_id, o.party, o.email, o.phone,
        o.website, o.term_start, o.term_end, o.source, o.source_id, 0⟩ :
          OfficialRow) =
      ⟨freshOfficialId rows, o.name, o.title, o.district_id, o.party, o.email,
       o.phone, o.website, o.term_start, o.term_end, o.source, o.source_id, 0⟩
    rw [freshOfficialId_map rows _ fun r => ?_]
    by_cases hr : (r.source_type, r.source_id) = (o2.source, o2.source_id)
    · rw [if_pos hr]
    · rw [if_neg hr]

theorem eraseD_upsertDistrict (now : Nat) (rows : List DistrictRow)
    (d : DistrictRec) :
    (upsertDistrict now rows d).map eraseD =
      districtSpec.gUpsert (rows.map eraseD) d := by
  unfold upsertDistrict UpsertSpec.gUpsert UpsertSpec.hasKey UpsertSpec.owmap
  have hcond : ((rows.map eraseD).any fun r =>
      decide (districtSpec.key r = districtSpec.rkey d)) =
        (rows.any fun r => decide (r.district_code = d.code)) := by
    rw [List.any_map]
    rfl
  rw [hcond]
  by_cases h : (rows.any fun r => decide (r.district_code = d.code)) = true
  · rw [if_pos h, if_pos h, List.map_map, List.map_map]
    apply List.map_congr_left
    intro r _
    simp only [Function.comp]
    by_cases hr : r.district_code = d.code
    · rw [if_pos hr]
      have : districtSpec.key (eraseD r) = districtSpec.rkey d := hr
      rw [if_pos this]
      rfl
    · rw [if_neg hr]
      have : ¬ districtSpec.key (eraseD r) = districtSpec.rkey d := hr
      rw [if_neg this]
  · rw [if_neg h, if_neg h, List.map_append]
    simp only [List.map_cons, List.map_nil]
    congr 2
    show (⟨freshDistrictId rows, d.type, d.state, d.code, d.name, d.geometry,
        0⟩ : DistrictRow) =
      ⟨freshDistrictId (rows.map eraseD), d.type, d.state, d.code, d.name,
        d.geometry, 0⟩
    rw [freshDistrictId_map rows eraseD fun r => rfl]

theorem eraseD_update_districts (now : Nat) (rows : List DistrictRow)
    (ds : List DistrictRec) :
    (update_districts now rows ds).map eraseD =
      districtSpec.gUpdate (rows.map eraseD) ds := by
  induction ds generalizing rows with
  | nil => rfl
  | cons d ds ih =>
    show (update_districts now (upsertDistrict now rows d) ds).map eraseD = _
    rw [ih (upsertDistrict now rows d), eraseD_upsertDistrict,
      UpsertSpec.gUpdate_cons]

/-- C4, district half, at the level of the stored table: re-running the
district merge with the same fetched records changes nothing besides
`updated_at`. -/
theorem update_districts_idem (t1 t2 : Nat) (rows : List DistrictRow)
    (ds : List DistrictRec) :
    (update_districts t2 (update_districts t1 rows ds) ds).map eraseD =
      (update_districts t1 rows ds).map eraseD := by
  rw [eraseD_update_districts, eraseD_update_districts,
    UpsertSpec.gUpdate_idem]

/-- The conflict test of the officials upsert (does a stored row carry
the record's `(source_type, source_id)` pair). -/
def officialKeyPresent (rows : List OfficialRow) (o : OfficialRec) : Bool :=
  rows.any fun r => decide (r.source_type = o.source ∧ r.source_id = o.source_id)

theorem officialKeyPresent_eq (rows : List OfficialRow) (o : OfficialRec) :
    officialKeyPresent rows o =
      officialSpec.hasKey (rows.map eraseO) (officialSpec.rkey o) := by
  unfold officialKeyPresent UpsertSpec.hasKey
  rw [List.any_map]
  apply list_any_congr
  intro r _
  simp only [Function.comp]
  show decide (r.source_type = o.source ∧ r.source_id = o.source_id) =
    decide ((r.source_type, r.source_id) = (o.source, o.source_id))
  rw [decide_eq_decide, Prod.mk.injEq]

theorem upsertOfficial_present_ok (now : Nat) (D : List DistrictRow)
    (rows : List OfficialRow) (o : OfficialRec)
    (hp : officialKeyPresent rows o = true) :
    upsertOfficial now D rows o = .ok (rows.map fun r =>
      if r.source_type = o.source ∧ r.source_id = o.source_id then
        { r with
            full_name := o.name, office_title := o.title, party := o.party,
            email := o.email, phone := o.phone, website := o.website,
            updated_at := now }
      else r) := by
  unfold upsertOfficial
  unfold officialKeyPresent at hp
  rw [if_pos hp]

theorem eraseO_upsertOfficial (now : Nat) (D : List DistrictRow)
    (rows rows1 : List OfficialRow) (o : OfficialRec)
    (h : upsertOfficial now D rows o = Except.ok rows1) :
    rows1.map eraseO = officialSpec.gUpsert (rows.map eraseO) o := by
  unfold upsertOfficial at h
  unfold UpsertSpec.gUpsert
  by_cases hp : (rows.any fun r =>
      decide (r.source_type = o.source ∧ r.source_id = o.source_id)) = true
  · rw [if_pos hp] at h
    injection h with h
    subst h
    have hk : officialSpec.hasKey (rows.map eraseO) (officialSpec.rkey o) = true := by
      rw [← officialKeyPresent_eq]
      exact hp
    rw [if_pos hk]
    unfold UpsertSpec.owmap
    rw [List.map_map, List.map_map]
    apply List.map_congr_left
    intro r _
    simp only [Function.comp]
    by_cases hr : r.source_type = o.source ∧ r.source_id = o.source_id
    · have hr2 : officialSpec.key (eraseO r) = officialSpec.rkey o := by
        show (r.source_type, r.source_id) = (o.source, o.source_id)
        rw [hr.1, hr.2]
      rw [if_pos hr, if_pos hr2]
      rfl
    · have hr2 : ¬ officialSpec.key (eraseO r) = officialSpec.rkey o := by
        show ¬ (r.source_type, r.source_id) = (o.source, o.source_id)
        intro hc
        rw [Prod.mk.injEq] at hc
        exact hr hc
      rw [if_neg hr, if_neg hr2]
  · rw [if_neg hp] at h
    by_cases hd : districtIdExists D o.district_id = true
    · rw [if_pos hd] at h
      injection h with h
      subst h
      have hk : ¬ officialSpec.hasKey (rows.map eraseO) (officialSpec.rkey o) = true := by
        rw [← officialKeyPresent_eq]
        exact hp
      rw [if_neg hk, List.map_append]
      simp only [List.map_cons, List.map_nil]
      congr 2
      show (⟨freshOfficialId rows, o.name, o.title, o.district_id, o.party,
          o.email, o.phone, o.website, o.term_start, o.term_end, o.source,
          o.source_id, 0⟩ : OfficialRow) =
        ⟨freshOfficialId (rows.map eraseO), o.name, o.title, o.district_id,
          o.party, o.email, o.phone, o.website, o.term_start, o.term_end,
          o.source, o.source_id, 0⟩
      rw [freshOfficialId_map rows eraseO fun r => rfl]
    · rw [if_neg hd] at h
      simp at h

theorem eraseO_update_officials (now : Nat) (D : List DistrictRow) :
    ∀ rows os, (update_officials now D rows os).snd = none →
      ((update_officials now D rows os).fst).map eraseO =
        officialSpec.gUpdate (rows.map eraseO) os := by
  intro rows os
  induction os generalizing rows with
  | nil => intro _; rfl
  | cons o os ih =>
    intro h
    cases hu : upsertOfficial now D rows o with
    | error e =>
      simp only [update_officials, hu] at h
      exact Option.noConfusion h
    | ok rows1 =>
      simp only [update_officials, hu] at h ⊢
      rw [ih rows1 h, UpsertSpec.gUpdate_cons,
        ← eraseO_upsertOfficial now D rows rows1 o hu]

theorem officialKeyPresent_upsert_ok (now : Nat) (D : List DistrictRow)
    (rows rows1 : List OfficialRow) (o o2 : OfficialRec)
    (h : upsertOfficial now D rows o = Except.ok rows1)
    (hp : officialKeyPresent rows o2 = true) :
    officialKeyPresent rows1 o2 = true := by
  rw [officialKeyPresent_eq] at hp ⊢
  rw [eraseO_upsertOfficial now D rows rows1 o h]
  exact officialSpec.hasKey_gUpsert_mono _ o _ hp

theorem officialKeyPresent_upsert_self (now : Nat) (D : List DistrictRow)
    (rows rows1 : List OfficialRow) (o : OfficialRec)
    (h : upsertOfficial now D rows o = Except.ok rows1) :
    officialKeyPresent rows1 o = true := by
  rw [officialKeyPresent_eq, eraseO_upsertOfficial now D rows rows1 o h]
  exact officialSpec.hasKey_gUpsert_self _ o

theorem officialKeyPresent_update_mono (now : Nat) (D : List DistrictRow)
    (rows : List OfficialRow) (os : List OfficialRec) (o2 : OfficialRec)
    (h : (update_officials now D rows os).snd = none)
    (hp : officialKeyPresent rows o2 = true) :
    officialKeyPresent (update_officials now D rows os).fst o2 = true := by
  rw [officialKeyPresent_eq, eraseO_update_officials now D rows os h]
  rw [officialKeyPresent_eq] at hp
  exact officialSpec.hasKey_gUpdate_mono os _ _ hp

theorem update_officials_keys (now : Nat) (D : List DistrictRow) :
    ∀ rows os, (update_officials now D rows os).snd = none →
      ∀ o ∈ os, officialKeyPresent (update_officials now D rows os).fst o = true := by
  intro rows os
  induction os generalizing rows with
  | nil =>
    intro _ o ho
    cases ho
  | cons o os ih =>
    intro h o2 ho2
    cases hu : upsertOfficial now D rows o with
    | error e =>
      simp only [update_officials, hu] at h
      exact Option.noConfusion h
    | ok rows1 =>
      simp only [update_officials, hu] at h ⊢
      rcases List.mem_cons.mp ho2 with hcase | hcase
      · subst hcase
        exact officialKeyPresent_update_mono now D rows1 os o2 h
          (officialKeyPresent_upsert_self now D rows rows1 o2 hu)
      · exact ih rows1 h o2 hcase

theorem update_officials_ok_of_keys (now : Nat) (D : List DistrictRow) :
    ∀ rows os, (∀ o ∈ os, officialKeyPresent rows o = true) →
      (update_officials now D rows os).snd = none := by
  intro rows os
  induction os generalizing rows with
  | nil => intro _; rfl
  | cons o os ih =>
    intro hall
    have hu := upsertOfficial_present_ok now D rows o (hall o (List.mem_cons_self o os))
    simp only [update_officials, hu]
    exact ih _ fun o2 ho2 => officialKeyPresent_upsert_ok now D rows _ o o2 hu
      (hall o2 (List.mem_cons_of_mem o ho2))

/-- C4, official half: if a first officials merge succeeded, replaying
the same records succeeds again (regardless of the district table in
force, since every key is now a conflict) and changes nothing besides
`updated_at`. -/
theorem update_officials_idem (t1 t2 : Nat) (D1 D2 : List DistrictRow)
    (rows : List OfficialRow) (os : List OfficialRec)
    (h1 : (update_officials t1 D1 rows os).snd = none) :
    (update_officials t2 D2 (update_officials t1 D1 rows os).fst os).snd = none ∧
    ((update_officials t2 D2 (update_officials t1 D1 rows os).fst os).fst).map eraseO =
      ((update_officials t1 D1 rows os).fst).map eraseO := by
  have hkeys := update_officials_keys t1 D1 rows os h1
  have h2 : (update_officials t2 D2 (update_officials t1 D1 rows os).fst os).snd = none :=
    update_officials_ok_of_keys t2 D2 _ os hkeys
  refine ⟨h2, ?_⟩
  rw [eraseO_update_officials t2 D2 _ os h2,
    eraseO_update_officials t1 D1 rows os h1]
  exact officialSpec.gUpdate_idem os _

/-! ## Observables used by the claims -/

/-- Whether some stored district row carries the given `district_code`. -/
def districtCodePresent (rows : List DistrictRow) (c : String) : Bool :=
  rows.any fun r => decide (r.district_code = c)

theorem districtCodePresent_eq (rows : List DistrictRow) (c : String) :
    districtCodePresent rows c = districtSpec.hasKey (rows.map eraseD) c := by
  unfold districtCodePresent UpsertSpec.hasKey
  rw [List.any_map]
  rfl

theorem update_districts_code_present (now : Nat) (rows : List DistrictRow)
    (ds : List DistrictRec) (d : DistrictRec) (hd : d ∈ ds) :
    districtCodePresent (update_districts now rows ds) d.code = true := by
  rw [districtCodePresent_eq, eraseD_update_districts]
  exact districtSpec.hasKey_gUpdate_of_mem ds _ d hd

theorem update_officials_append (now : Nat) (D : List DistrictRow) :
    ∀ rows pre rest, update_officials now D rows (pre ++ rest) =
      match update_officials now D rows pre with
      | (rows1, none) => update_officials now D rows1 rest
      | (rows1, some e) => (rows1, some e) := by
  intro rows pre rest
  induction pre generalizing rows with
  | nil => rfl
  | cons o pre ih =>
    show update_officials now D rows (o :: (pre ++ rest)) = _
    cases hu : upsertOfficial now D rows o with
    | ok rows1 =>
      simp only [update_officials, hu]
      exact ih rows1
    | error e =>
      simp only [update_officials, hu]

/-- After the cache upsert, a read strictly before the new expiry finds
a live row holding the upserted location and expiry. -/
theorem cacheLookup_upsertCache (t1 e : Nat) (cache : List CacheRow)
    (address norm : String) (p : GeoPoint) (hlive : t1 < e) :
    ∃ row, cacheLookup t1 (upsertCache cache address norm p e) norm = some row ∧
      row.normalized_address = norm ∧ row.location = p ∧ row.expires_at = e := by
  unfold upsertCache cacheLookup
  by_cases h : (cache.any fun r => decide (r.normalized_address = norm)) = true
  · rw [if_pos h]
    induction cache with
    | nil => simp at h
    | cons r cache ih =>
      simp only [List.map_cons]
      by_cases hr : r.normalized_address = norm
      · rw [if_pos hr, List.find?_cons_of_pos _ (by simp [hr, hlive])]
        exact ⟨_, rfl, hr, rfl, rfl⟩
      · rw [if_neg hr, List.find?_cons_of_neg _ (by simp [hr])]
        apply ih
        have := List.any_eq_true.mp h
        obtain ⟨x, hx, hpx⟩ := this
        rcases List.mem_cons.mp hx with hcase | hcase
        · subst hcase
          exact absurd (of_decide_eq_true hpx) hr
        · exact List.any_eq_true.mpr ⟨x, hcase, hpx⟩
  · rw [if_neg h]
    have hnone := List.any_eq_false.mp (eq_false_of_ne_true h)
    clear h
    induction cache with
    | nil =>
      refine ⟨⟨address, norm, p, e⟩, ?_, rfl, rfl, rfl⟩
      simp [hlive]
    | cons r cache ih =>
      have hrn : ¬ r.normalized_address = norm := by
        have := hnone r (List.mem_cons_self r cache)
        simpa using this
      rw [List.cons_append, List.find?_cons_of_neg _ (by simp [hrn])]
      exact ih (fun x hx => hnone x (List.mem_cons_of_mem r hx))

/-- The cache upsert always leaves a row for the upserted key carrying
the upserted location and expiry. -/
theorem upsertCache_mem (cache : List CacheRow) (address norm : String)
    (p : GeoPoint) (e : Nat) :
    ∃ row ∈ upsertCache cache address norm p e,
      row.normalized_address = norm ∧ row.location = p ∧ row.expires_at = e := by
  unfold upsertCache
  by_cases h : (cache.any fun r => decide (r.normalized_address = norm)) = true
  · rw [if_pos h]
    obtain ⟨r, hr, hpr⟩ := List.any_eq_true.mp h
    have hrn : r.normalized_address = norm := of_decide_eq_true hpr
    refine ⟨{ r with location := p, expires_at := e },
      List.mem_map.mpr ⟨r, hr, ?_⟩, hrn, rfl, rfl⟩
    show (if r.normalized_address = norm then
        ({ r with location := p, expires_at := e } : CacheRow) else r) =
      { r with location := p, expires_at := e }
    rw [if_pos hrn]
  · rw [if_neg h]
    exact ⟨⟨address, norm, p, e⟩,
      List.mem_append_right _ (List.mem_singleton.mpr rfl), rfl, rfl, rfl⟩

/-- How many `data_sources` rows carry the given name. -/
def dataSourceCount (rows : List DataSourceRow) (name : String) : Nat :=
  (rows.filter fun r => decide (r.source_name = name)).length

theorem dataSourceCount_map (rows : List DataSourceRow)
    (f : DataSourceRow → DataSourceRow)
    (hf : ∀ r, (f r).source_name = r.source_name) (name : String) :
    dataSourceCount (rows.map f) name = dataSourceCount rows name := by
  unfold dataSourceCount
  rw [List.filter_map, List.length_map]
  congr 1
  apply List.filter_congr
  intro r _
  simp [Function.comp, hf]

theorem dataSource_name_ite (name : String) (t : Nat) (r : DataSourceRow) :
    ((if r.source_name = name then
      { r with last_sync := t, status := "running" } else r) : DataSourceRow).source_name =
      r.source_name := by
  by_cases h : r.source_name = name
  · rw [if_pos h]
  · rw [if_neg h]

theorem setSuccess_name (name : String) (t : Nat) (r : DataSourceRow) :
    ((if r.source_name = name then
      { r with status := "success", last_sync := t } else r) : DataSourceRow).source_name =
      r.source_name := by
  by_cases h : r.source_name = name
  · rw [if_pos h]
  · rw [if_neg h]

theorem setError_name (name msg : String) (r : DataSourceRow) :
    ((if r.source_name = name then
      { r with status := "error", error_message := some msg } else r) : DataSourceRow).source_name =
      r.source_name := by
  by_cases h : r.source_name = name
  · rw [if_pos h]
  · rw [if_neg h]

theorem upsertRunning_count (rows : List DataSourceRow) (name name2 : String)
    (t : Nat) (h : dataSourceCount rows name2 ≤ 1) :
    dataSourceCount (upsertDataSourceRunning rows name t) name2 ≤ 1 := by
  unfold upsertDataSourceRunning
  by_cases hk : (rows.any fun r => decide (r.source_name = name)) = true
  · rw [if_pos hk, dataSourceCount_map rows _ (dataSource_name_ite name t) name2]
    exact h
  · rw [if_neg hk]
    unfold dataSourceCount at h ⊢
    rw [List.filter_append, List.length_append]
    by_cases hn : name = name2
    · subst hn
      have h0 : (rows.filter fun r => decide (r.source_name = name)).length = 0 := by
        rw [List.length_eq_zero, List.filter_eq_nil_iff]
        intro a ha hc
        exact hk (List.any_eq_true.mpr ⟨a, ha, hc⟩)
      rw [h0]
      simp
    · have h1 : (([⟨name, t, "running", none⟩] : List DataSourceRow).filter
          fun r => decide (r.source_name = name2)).length = 0 := by
        simp [hn]
      rw [h1]
      simpa using h

/-- A `full_sync` status row exists after the run-start upsert. -/
theorem upsertRunning_any (rows : List DataSourceRow) (name : String) (t : Nat) :
    ((upsertDataSourceRunning rows name t).any fun r =>
      decide (r.source_name = name)) = true := by
  unfold upsertDataSourceRunning
  by_cases hk : (rows.any fun r => decide (r.source_name = name)) = true
  · rw [if_pos hk, List.any_map]
    obtain ⟨r, hr, hpr⟩ := List.any_eq_true.mp hk
    refine List.any_eq_true.mpr ⟨r, hr, ?_⟩
    simp only [Function.comp]
    rw [dataSource_name_ite]
    exact hpr
  · rw [if_neg hk, List.any_append]
    simp

theorem any_name_map (rows : List DataSourceRow) (f : DataSourceRow → DataSourceRow)
    (hf : ∀ r, (f r).source_name = r.source_name) (name : String) :
    ((rows.map f).any fun r => decide (r.source_name = name)) =
      rows.any fun r => decide (r.source_name = name) := by
  rw [List.any_map]
  apply list_any_congr
  intro r _
  simp [Function.comp, hf]

/-- Status and message of the named rows after the success update:
status becomes success, the error message is left as it was. -/
theorem setSuccess_fields (rows : List DataSourceRow) (name : String) (t : Nat)
    (em : Option String)
    (hmsg : ∀ r ∈ rows, r.source_name = name → r.error_message = em) :
    ∀ r ∈ setDataSourceSuccess rows name t, r.source_name = name →
      r.status = "success" ∧ r.error_message = em := by
  intro r hr hname
  unfold setDataSourceSuccess at hr
  obtain ⟨r0, hr0, rfl⟩ := List.mem_map.mp hr
  by_cases h0 : r0.source_name = name
  · rw [if_pos h0]
    exact ⟨rfl, hmsg r0 hr0 h0⟩
  · rw [if_neg h0] at hname
    exact absurd hname h0

/-- Status and message of the named rows after the error update. -/
theorem setError_fields (rows : List DataSourceRow) (name msg : String) :
    ∀ r ∈ setDataSourceError rows name msg, r.source_name = name →
      r.status = "error" ∧ r.error_message = some msg := by
  intro r hr hname
  unfold setDataSourceError at hr
  obtain ⟨r0, hr0, rfl⟩ := List.mem_map.mp hr
  by_cases h0 : r0.source_name = name
  · rw [if_pos h0]
    exact ⟨rfl, rfl⟩
  · rw [if_neg h0] at hname
    exact absurd hname h0

/-- The run-start upsert leaves the error message of the named rows
untouched, provided a named row already exists. -/
theorem upsertRunning_msg (rows : List DataSourceRow) (name : String) (t : Nat)
    (em : Option String)
    (hany : (rows.any fun r => decide (r.source_name = name)) = true)
    (hmsg : ∀ r ∈ rows, r.source_name = name → r.error_message = em) :
    ∀ r ∈ upsertDataSourceRunning rows name t, r.source_name = name →
      r.error_message = em := by
  intro r hr hname
  unfold upsertDataSourceRunning at hr
  rw [if_pos hany] at hr
  obtain ⟨r0, hr0, rfl⟩ := List.mem_map.mp hr
  by_cases h0 : r0.source_name = name
  · rw [if_pos h0]
    exact hmsg r0 hr0 h0
  · rw [if_neg h0] at hname
    exact absurd hname h0

/-- Item list produced by the bulk loop: one item per address in input
order, each carrying exactly one of a result or an error. -/
theorem bulkCore_items (geocoder : String → GeocodeOutcome)
    (contains : String → GeoPoint → Bool) (now : Nat) :
    ∀ addresses db,
      ((bulkCore geocoder contains now db addresses).fst).map
        (fun i => i.address) = addresses ∧
      ∀ item ∈ (bulkCore geocoder contains now db addresses).fst,
        (item.result = none ∧ item.error.isSome = true) ∨
        (item.result.isSome = true ∧ item.error = none) := by
  intro addresses
  induction addresses with
  | nil =>
    intro db
    exact ⟨rfl, fun item h => absurd h (List.not_mem_nil item)⟩
  | cons a rest ih =>
    intro db
    cases hl : lookup_representatives geocoder contains now db a with
    | mk res db1 =>
      cases res with
      | ok r =>
        simp only [bulkCore, hl, List.map_cons]
        refine ⟨by rw [(ih db1).1], ?_⟩
        intro item hitem
        rcases List.mem_cons.mp hitem with hcase | hcase
        · subst hcase
          exact Or.inr ⟨rfl, rfl⟩
        · exact (ih db1).2 item hcase
      | error e =>
        simp only [bulkCore, hl, List.map_cons]
        refine ⟨by rw [(ih db1).1], ?_⟩
        intro item hitem
        rcases List.mem_cons.mp hitem with hcase | hcase
        · subst hcase
          exact Or.inl ⟨rfl, rfl⟩
        · exact (ih db1).2 item hcase

/-- A per-item failure does not abort the loop: whatever the outcome of
the first address, the remaining items are the bulk result of the rest
of the list against the database state left by the first lookup. -/
theorem bulkCore_isolation (geocoder : String → GeocodeOutcome)
    (contains : String → GeoPoint → Bool) (now : Nat) (db : Db) (a : String)
    (rest : List String) :
    ((bulkCore geocoder contains now db (a :: rest)).fst).tail =
      (bulkCore geocoder contains now
        (lookup_representatives geocoder contains now db a).snd rest).fst := by
  cases hl : lookup_representatives geocoder contains now db a with
  | mk res db1 =>
    cases res with
    | ok r => simp only [bulkCore, hl, List.tail_cons]
    | error e => simp only [bulkCore, hl, List.tail_cons]

/-! ## Shapes of a sync run -/

/-- A run whose census fetch returned `None` (the placeholder
`fetch_census_data`): iterating `None` in `update_districts` raises
`TypeError`, the `except` block records the error, and no table other
than `data_sources` changes. -/
theorem sync_all_none_shape (t1 t2 : Nat) (os : List OfficialRec) (db : Db) :
    sync_all t1 t2 os none db =
      { db with
          data_sources :=
            setDataSourceError
              (upsertDataSourceRunning db.data_sources "full_sync" t1)
              "full_sync" "TypeError: NoneType object is not iterable" } := rfl

/-- A run whose merges complete: districts merged, officials merged,
status set to success. -/
theorem sync_all_success_shape (t1 t2 : Nat) (os : List OfficialRec)
    (ds : List DistrictRec) (db : Db)
    (hok : (update_officials t1 (update_districts t1 db.districts ds)
      db.officials os).snd = none) :
    sync_all t1 t2 os (some ds) db =
      { address_cache := db.address_cache,
        districts := update_districts t1 db.districts ds,
        officials := (update_officials t1 (update_districts t1 db.districts ds)
          db.officials os).fst,
        data_sources := setDataSourceSuccess
          (upsertDataSourceRunning db.data_sources "full_sync" t1)
          "full_sync" t2 } := by
  have hpair : update_officials t1 (update_districts t1 db.districts ds)
      db.officials os =
      ((update_officials t1 (update_districts t1 db.districts ds)
        db.officials os).fst, none) := by
    rw [← hok]
  simp only [sync_all]
  rw [hpair]

/-- A run whose officials merge fails: the districts and the officials
merged before the failure stay, status is set to error with the raised
message. -/
theorem sync_all_officials_error_shape (t1 t2 : Nat) (os : List OfficialRec)
    (ds : List DistrictRec) (db : Db) (m : String)
    (herr : (update_officials t1 (update_districts t1 db.districts ds)
      db.officials os).snd = some m) :
    sync_all t1 t2 os (some ds) db =
      { address_cache := db.address_cache,
        districts := update_districts t1 db.districts ds,
        officials := (update_officials t1 (update_districts t1 db.districts ds)
          db.officials os).fst,
        data_sources := setDataSourceError
          (upsertDataSourceRunning db.data_sources "full_sync" t1)
          "full_sync" m } := by
  have hpair : update_officials t1 (update_districts t1 db.districts ds)
      db.officials os =
      ((update_officials t1 (update_districts t1 db.districts ds)
        db.officials os).fst, some m) := by
    rw [← herr]
  simp only [sync_all]
  rw [hpair]

theorem setSuccess_status (rows : List DataSourceRow) (name : String) (t : Nat) :
    ∀ r ∈ setDataSourceSuccess rows name t, r.source_name = name →
      r.status = "success" := by
  intro r hr hname
  unfold setDataSourceSuccess at hr
  obtain ⟨r0, hr0, rfl⟩ := List.mem_map.mp hr
  by_cases h0 : r0.source_name = name
  · rw [if_pos h0]
  · rw [if_neg h0] at hname
    exact absurd hname h0

/-- Any sync run keeps the at-most-one-row-per-source-name bound. -/
theorem sync_all_count (t1 t2 : Nat) (os : List OfficialRec)
    (census : Option (List DistrictRec)) (db : Db) (name2 : String)
    (h : dataSourceCount db.data_sources name2 ≤ 1) :
    dataSourceCount (sync_all t1 t2 os census db).data_sources name2 ≤ 1 := by
  have hrun := upsertRunning_count db.data_sources "full_sync" name2 t1 h
  cases census with
  | none =>
    rw [sync_all_none_shape]
    show dataSourceCount (setDataSourceError
      (upsertDataSourceRunning db.data_sources "full_sync" t1) "full_sync"
      "TypeError: NoneType object is not iterable") name2 ≤ 1
    unfold setDataSourceError
    rw [dataSourceCount_map _ _ (setError_name "full_sync" _) name2]
    exact hrun
  | some ds =>
    cases hu : update_officials t1 (update_districts t1 db.districts ds)
        db.officials os with
    | mk rows e =>
      cases e with
      | none =>
        rw [sync_all_success_shape t1 t2 os ds db (by rw [hu])]
        show dataSourceCount (setDataSourceSuccess
          (upsertDataSourceRunning db.data_sources "full_sync" t1)
          "full_sync" t2) name2 ≤ 1
        unfold setDataSourceSuccess
        rw [dataSourceCount_map _ _ (setSuccess_name "full_sync" t2) name2]
        exact hrun
      | some m =>
        rw [sync_all_officials_error_shape t1 t2 os ds db m (by rw [hu])]
        show dataSourceCount (setDataSourceError
          (upsertDataSourceRunning db.data_sources "full_sync" t1)
          "full_sync" m) name2 ≤ 1
        unfold setDataSourceError
        rw [dataSourceCount_map _ _ (setError_name "full_sync" m) name2]
        exact hrun

/-- A cache hit returns the stored location and leaves the state
unchanged. -/
theorem resolveLocation_hit (geocoder : String → GeocodeOutcome) (now : Nat)
    (db : Db) (a : String) (row : CacheRow)
    (h : cacheLookup now db.address_cache (normalizeAddress a) = some row) :
    resolveLocation geocoder now db a = (Except.ok row.location, db) := by
  unfold resolveLocation
  rw [h]

/-! ## Concrete fixtures shared by the witnesses -/

deriving instance DecidableEq for Except

/-- The empty database. -/
def emptyDb : Db := ⟨[], [], [], []⟩

/-- A geocoder that always answers with the point (1, 2). -/
def gFound12 : String → GeocodeOutcome := fun _ => .found 1 2

/-- A geocoder that always answers with the point (3, 4). -/
def gFound34 : String → GeocodeOutcome := fun _ => .found 3 4

/-- A containment test holding everywhere. -/
def containsAll : String → GeoPoint → Bool := fun _ _ => true

/-- A containment test holding nowhere. -/
def containsNone : String → GeoPoint → Bool := fun _ _ => false

theorem normalizeAddress_a : normalizeAddress "a" = "a" := by
  rw [normalizeAddress, String.toLower, String.map_eq]
  decide

/-! ## The claims -/

/-- C1 counterexample: two fetched district records that share
`district_code` "X" but differ in `district_type` and `state_fips` are
merged into a single stored row — the `ON CONFLICT (district_code)`
clause matches on the code alone, and the second record overwrites the
first row's name and boundary while keeping its `district_type` and
`state_fips` — instead of being stored as two distinct District rows
as the claim states. -/
theorem c1_counterexample :
    update_districts 5 []
        [⟨"state_senate", "17", "X", "A", "g1"⟩,
         ⟨"state_house", "06", "X", "B", "g2"⟩] =
      [⟨1, "state_senate", "17", "X", "B", "g2", 5⟩] ∧
    (update_districts 5 []
        [⟨"state_senate", "17", "X", "A", "g1"⟩,
         ⟨"state_house", "06", "X", "B", "g2"⟩]).length = 1 := by
  constructor
  · decide
  · decide

/-- C1 (amended): the district merge upserts keyed by `district_code`
alone. Two records sharing a code collapse into one row, the later one
overwriting name and boundary while the row keeps the first record's
`district_type` and `state_fips`; and an upsert whose code is already
stored changes no row's identity fields (id, district_type, state_fips,
district_code) and adds no row. -/
theorem c1_amended (now : Nat) (rows : List DistrictRow) (d d1 d2 : DistrictRec)
    (hshare : d1.code = d2.code)
    (hpresent : districtCodePresent rows d.code = true) :
    update_districts now [] [d1, d2] =
      [⟨1, d1.type, d1.state, d1.code, d2.name, d2.geometry, now⟩] ∧
    (upsertDistrict now rows d).map
        (fun r => (r.id, r.district_type, r.state_fips, r.district_code)) =
      rows.map fun r => (r.id, r.district_type, r.state_fips, r.district_code) := by
  constructor
  · show upsertDistrict now (upsertDistrict now [] d1) d2 = _
    have h1 : upsertDistrict now [] d1 =
        [⟨1, d1.type, d1.state, d1.code, d1.name, d1.geometry, now⟩] := rfl
    rw [h1]
    unfold upsertDistrict
    rw [if_pos (by simp [hshare])]
    simp [hshare]
  · unfold upsertDistrict
    unfold districtCodePresent at hpresent
    rw [if_pos hpresent, List.map_map]
    apply List.map_congr_left
    intro r _
    simp only [Function.comp]
    by_cases hr : r.district_code = d.code
    · rw [if_pos hr]
    · rw [if_neg hr]

/-- C1 amended, witnessed at a concrete input. -/
theorem c1_amended_witness :
    ((⟨"a", "11", "X", "N1", "g1"⟩ : DistrictRec).code =
        (⟨"b", "22", "X", "N2", "g2"⟩ : DistrictRec).code ∧
      districtCodePresent [⟨1, "t", "17", "X", "D", "g", 0⟩] "X" = true) ∧
    update_districts 7 []
        [⟨"a", "11", "X", "N1", "g1"⟩, ⟨"b", "22", "X", "N2", "g2"⟩] =
      [⟨1, "a", "11", "X", "N2", "g2", 7⟩] :=
  ⟨⟨rfl, by decide⟩,
    (c1_amended 7 [⟨1, "t", "17", "X", "D", "g", 0⟩]
      ⟨"t2", "18", "X", "N", "g3"⟩ ⟨"a", "11", "X", "N1", "g1"⟩
      ⟨"b", "22", "X", "N2", "g2"⟩ rfl (by decide)).1⟩

/-- C2: a failed upstream fetch degrades to an empty list and does not
abort the run. `fetch_openstates_data` returns `[]` on any non-200
response and on any transport error; a run whose officials source
yielded nothing still merges every fetched district record and ends
with the `full_sync` status row at success; symmetrically, a run whose
district source yielded nothing ends at success provided its officials
merge completes. -/
theorem c2_partial_failure_isolation (s : Nat) (body os : List OfficialRec)
    (msg : String) (census : List DistrictRec) (db : Db) (t1 t2 : Nat)
    (hs : s ≠ 200) :
    fetch_openstates_data (.response s body) = [] ∧
    fetch_openstates_data (.transportError msg) = [] ∧
    (∀ d ∈ census, districtCodePresent
      (sync_all t1 t2 [] (some census) db).districts d.code = true) ∧
    ((sync_all t1 t2 [] (some census) db).data_sources.any fun r =>
      decide (r.source_name = "full_sync")) = true ∧
    (∀ r ∈ (sync_all t1 t2 [] (some census) db).data_sources,
      r.source_name = "full_sync" → r.status = "success") ∧
    ((update_officials t1 (update_districts t1 db.districts []) db.officials
        os).snd = none →
      ∀ r ∈ (sync_all t1 t2 os (some []) db).data_sources,
        r.source_name = "full_sync" → r.status = "success") := by
  refine ⟨?_, rfl, ?_, ?_, ?_, ?_⟩
  · show (if s = 200 then body else []) = []
    rw [if_neg hs]
  · intro d hd
    rw [sync_all_success_shape t1 t2 [] census db rfl]
    exact update_districts_code_present t1 db.districts census d hd
  · rw [sync_all_success_shape t1 t2 [] census db rfl]
    show ((setDataSourceSuccess
      (upsertDataSourceRunning db.data_sources "full_sync" t1)
      "full_sync" t2).any fun r => decide (r.source_name = "full_sync")) = true
    unfold setDataSourceSuccess
    rw [any_name_map _ _ (setSuccess_name "full_sync" t2) "full_sync"]
    exact upsertRunning_any db.data_sources "full_sync" t1
  · intro r hr hname
    rw [sync_all_success_shape t1 t2 [] census db rfl] at hr
    exact setSuccess_status _ "full_sync" t2 r hr hname
  · intro hok r hr hname
    rw [sync_all_success_shape t1 t2 os [] db hok] at hr
    exact setSuccess_status _ "full_sync" t2 r hr hname

/-- C2, witnessed at a concrete input: a 500 response yields no
records, and the run merging one district with no officials ends at
success; the symmetric empty-district run also ends at success. -/
theorem c2_witness :
    (500 : Nat) ≠ 200 ∧
    fetch_openstates_data (.response 500 []) = [] ∧
    (∀ r ∈ (sync_all 1 2 [] (some [⟨"t", "17", "X", "D", "g"⟩])
        emptyDb).data_sources,
      r.source_name = "full_sync" → r.status = "success") ∧
    ∀ r ∈ (sync_all 1 2 [] (some []) emptyDb).data_sources,
      r.source_name = "full_sync" → r.status = "success" := by
  refine ⟨by decide, ?_, ?_, ?_⟩
  · exact (c2_partial_failure_isolation 500 [] [] "boom"
      [⟨"t", "17", "X", "D", "g"⟩] emptyDb 1 2 (by decide)).1
  · exact (c2_partial_failure_isolation 500 [] [] "boom"
      [⟨"t", "17", "X", "D", "g"⟩] emptyDb 1 2 (by decide)).2.2.2.2.1
  · exact (c2_partial_failure_isolation 500 [] [] "boom"
      [⟨"t", "17", "X", "D", "g"⟩] emptyDb 1 2 (by decide)).2.2.2.2.2 rfl

/-- Fixture for the C3 counterexample: a database whose cache holds a
live entry for "a" at the point (1, 2) expiring at 2592010 — exactly
the entry a resolve at time 10 would have written (10 + 30 days). -/
def c3db : Db := ⟨[⟨"a", "a", ⟨1, 2⟩, 2592010⟩], [], [], []⟩

/-- C3 counterexample: a resolve of "a" at time 2592005 succeeds (cache
hit, point (1, 2), state unchanged); a second resolve only 10 seconds
later — well within 30 days of the first — finds no live entry, invokes
the external geocoder (its result now depends on which geocoder is
plugged in) and returns a different GeoPoint. The claim fails because
"within 30 days of the previous lookup" does not imply "within the
entry's own expiry window" when the previous lookup was itself a cache
hit on an older entry. -/
theorem c3_counterexample :
    (resolveLocation gFound34 2592005 c3db "a").fst = Except.ok ⟨1, 2⟩ ∧
    (resolveLocation gFound34 2592005 c3db "a").snd = c3db ∧
    (2592015 : Nat) < 2592005 + thirtyDays ∧
    cacheLookup 2592015 c3db.address_cache (normalizeAddress "a") = none ∧
    (resolveLocation gFound34 2592015 c3db "a").fst = Except.ok ⟨3, 4⟩ ∧
    (resolveLocation gFound12 2592015 c3db "a").fst = Except.ok ⟨1, 2⟩ ∧
    (Except.ok (⟨3, 4⟩ : GeoPoint) : Except HErr GeoPoint) ≠ Except.ok ⟨1, 2⟩ := by
  refine ⟨?_, ?_, by decide, ?_, ?_, ?_, by decide⟩
  · simp only [resolveLocation, cacheLookup, normalizeAddress_a]
    decide
  · simp only [resolveLocation, cacheLookup, normalizeAddress_a]
    decide
  · simp only [cacheLookup, normalizeAddress_a]
    decide
  · simp only [resolveLocation, cacheLookup, normalizeAddress_a]
    decide
  · simp only [resolveLocation, cacheLookup, normalizeAddress_a]
    decide

/-- C3 (amended): after a lookup of A that misses the cache and
geocodes successfully — thereby writing a fresh thirty-day entry — a
second lookup of A within 30 days finds a live cache entry, returns the
same GeoPoint with the state unchanged, and does not invoke the
geocoding collaborator: its outcome is the same for every geocoder. -/
theorem c3_amended (g : String → GeocodeOutcome) (t0 t1 : Nat) (db db1 : Db)
    (a : String) (p : GeoPoint)
    (h0 : cacheLookup t0 db.address_cache (normalizeAddress a) = none)
    (hres : resolveLocation g t0 db a = (Except.ok p, db1))
    (ht : t1 < t0 + thirtyDays) :
    (∃ row ∈ db1.address_cache, row.normalized_address = normalizeAddress a ∧
      t1 < row.expires_at ∧ row.location = p) ∧
    ∀ g2, resolveLocation g2 t1 db1 a = (Except.ok p, db1) := by
  unfold resolveLocation at hres
  rw [h0] at hres
  unfold geocode_address at hres
  cases hg : g a with
  | noMatch =>
    rw [hg] at hres
    exact absurd (congrArg Prod.fst hres) (by simp)
  | timedOut =>
    rw [hg] at hres
    exact absurd (congrArg Prod.fst hres) (by simp)
  | found lat lon =>
    rw [hg] at hres
    have hp : (⟨lat, lon⟩ : GeoPoint) = p := by
      have h := congrArg Prod.fst hres
      simpa using h
    have hdb : db1 = { db with
        address_cache := upsertCache db.address_cache a (normalizeAddress a)
          ⟨lat, lon⟩ (t0 + thirtyDays) } := by
      have h := congrArg Prod.snd hres
      exact h.symm
    subst hp
    obtain ⟨row, hfind, hnorm, hloc, hexp⟩ := cacheLookup_upsertCache t1
      (t0 + thirtyDays) db.address_cache a (normalizeAddress a) ⟨lat, lon⟩ ht
    subst hdb
    constructor
    · refine ⟨row, List.mem_of_find?_eq_some hfind, hnorm, ?_, hloc⟩
      rw [hexp]
      exact ht
    · intro g2
      have hcl : cacheLookup t1
          ({ db with
              address_cache :=
                upsertCache db.address_cache a (normalizeAddress a)
                  ⟨lat, lon⟩ (t0 + thirtyDays) } : Db).address_cache
          (normalizeAddress a) = some row := hfind
      rw [resolveLocation_hit g2 t1 _ a row hcl, hloc]

/-- The database state after the C3 witness's first (cache-missing)
lookup: one fresh cache entry for "a" expiring thirty days later. -/
def c3wdb : Db := ⟨[⟨"a", normalizeAddress "a", ⟨1, 2⟩, 100 + thirtyDays⟩], [], [], []⟩

/-- C3 amended, witnessed at a concrete input. -/
theorem c3_amended_witness :
    (cacheLookup 100 emptyDb.address_cache (normalizeAddress "a") = none ∧
      resolveLocation gFound12 100 emptyDb "a" = (Except.ok ⟨1, 2⟩, c3wdb) ∧
      (150 : Nat) < 100 + thirtyDays) ∧
    (∃ row ∈ c3wdb.address_cache,
      row.normalized_address = normalizeAddress "a" ∧
      150 < row.expires_at ∧ row.location = ⟨1, 2⟩) ∧
    ∀ g2, resolveLocation g2 150 c3wdb "a" = (Except.ok ⟨1, 2⟩, c3wdb) :=
  ⟨⟨rfl, rfl, by decide⟩,
    c3_amended gFound12 100 150 emptyDb c3wdb "a" ⟨1, 2⟩ rfl rfl (by decide)⟩

/-- C4: running the merge phase (districts then officials) a second
time with the same fetched records, given the first officials merge
completed, completes again and leaves both tables unchanged except for
the refreshed `updated_at` timestamps: no duplicate rows and no other
field drift. -/
theorem c4_merge_idempotent (t1 t2 : Nat) (db : Db) (ds : List DistrictRec)
    (os : List OfficialRec)
    (h1 : (update_officials t1 (update_districts t1 db.districts ds)
      db.officials os).snd = none) :
    (update_officials t2 (update_districts t2 (update_districts t1 db.districts ds) ds)
      (update_officials t1 (update_districts t1 db.districts ds) db.officials os).fst
      os).snd = none ∧
    (update_districts t2 (update_districts t1 db.districts ds) ds).map eraseD =
      (update_districts t1 db.districts ds).map eraseD ∧
    ((update_officials t2 (update_districts t2 (update_districts t1 db.districts ds) ds)
      (update_officials t1 (update_districts t1 db.districts ds) db.officials os).fst
      os).fst).map eraseO =
      ((update_officials t1 (update_districts t1 db.districts ds) db.officials
        os).fst).map eraseO := by
  obtain ⟨h2, he⟩ := update_officials_idem t1 t2
    (update_districts t1 db.districts ds)
    (update_districts t2 (update_districts t1 db.districts ds) ds)
    db.officials os h1
  exact ⟨h2, update_districts_idem t1 t2 db.districts ds, he⟩

/-- Fixture records for the C4 witness. -/
def c4d : DistrictRec := ⟨"state_house", "17", "HD-1", "District One", "geom"⟩

/-- A fetched official referencing district id 1, which the district
merge of `c4d` into the empty database creates. -/
def c4o : OfficialRec :=
  ⟨"John Doe", "Representative", 1, none, none, none, none, "2020", "2024",
    "openstates", "os-1"⟩

/-- C4, witnessed at a concrete input. -/
theorem c4_witness :
    ((update_officials 1 (update_districts 1 emptyDb.districts [c4d])
      emptyDb.officials [c4o]).snd = none) ∧
    ((update_officials 2 (update_districts 2 (update_districts 1 emptyDb.districts [c4d]) [c4d])
      (update_officials 1 (update_districts 1 emptyDb.districts [c4d]) emptyDb.officials [c4o]).fst
      [c4o]).snd = none ∧
    (update_districts 2 (update_districts 1 emptyDb.districts [c4d]) [c4d]).map eraseD =
      (update_districts 1 emptyDb.districts [c4d]).map eraseD ∧
    ((update_officials 2 (update_districts 2 (update_districts 1 emptyDb.districts [c4d]) [c4d])
      (update_officials 1 (update_districts 1 emptyDb.districts [c4d]) emptyDb.officials [c4o]).fst
      [c4o]).fst).map eraseO =
      ((update_officials 1 (update_districts 1 emptyDb.districts [c4d]) emptyDb.officials
        [c4o]).fst).map eraseO) :=
  ⟨by decide, c4_merge_idempotent 1 2 emptyDb [c4d] [c4o] (by decide)⟩

/-- Fixtures for C5: one stored district with id 1, an official record
referencing the missing district 99, and two referencing district 1. -/
def c5districts : List DistrictRow :=
  [⟨1, "state_house", "17", "HD-1", "Test District", "geom", 0⟩]

/-- An official record whose district reference (99) does not resolve. -/
def c5bad : OfficialRec :=
  ⟨"Bad Ref", "Representative", 99, none, none, none, none, "2020", "2024",
    "openstates", "bad-1"⟩

/-- An official record whose district reference (1) resolves. -/
def c5good : OfficialRec :=
  ⟨"John Doe", "Representative", 1, none, none, none, none, "2020", "2024",
    "openstates", "good-1"⟩

/-- A second official record whose district reference (1) resolves. -/
def c5good2 : OfficialRec :=
  ⟨"Jane Roe", "Senator", 1, none, none, none, none, "2020", "2024",
    "openstates", "good-2"⟩

/-- C5 counterexample: in the batch [bad, good], the bad record's
foreign-key failure aborts the merge loop, so the good official —
whose district reference resolves — is NOT merged, contradicting the
claim that officials with resolvable references in the same batch are
still merged. -/
theorem c5_counterexample :
    (update_officials 0 c5districts [] [c5bad, c5good]).fst = [] ∧
    (update_officials 0 c5districts [] [c5bad, c5good]).snd =
      some "foreign key violation: district 99 does not exist" ∧
    districtIdExists c5districts c5good.district_id = true := by
  refine ⟨?_, ?_, by decide⟩
  · decide
  · decide

/-- C5 (amended): an official record whose referenced district does not
exist is rejected at insert time with a foreign-key error, creating no
orphan row, and the error is surfaced; officials merged before it in
the batch remain, but the batch aborts at the failing record, so
officials after it — even with resolvable references — are not merged
in that run. -/
theorem c5_amended (now : Nat) (D : List DistrictRow)
    (rows rows1 : List OfficialRow) (pre post : List OfficialRec)
    (bad : OfficialRec)
    (hpre : update_officials now D rows pre = (rows1, none))
    (hkey : officialKeyPresent rows1 bad = false)
    (hfk : districtIdExists D bad.district_id = false) :
    update_officials now D rows (pre ++ bad :: post) =
      (rows1, some ("foreign key violation: district " ++
        toString bad.district_id ++ " does not exist")) := by
  rw [update_officials_append now D rows pre (bad :: post), hpre]
  show update_officials now D rows1 (bad :: post) = _
  have hu : upsertOfficial now D rows1 bad =
      .error ("foreign key violation: district " ++
        toString bad.district_id ++ " does not exist") := by
    unfold upsertOfficial
    unfold officialKeyPresent at hkey
    rw [if_neg (by rw [hkey]; exact fun hc => Bool.noConfusion hc),
      if_neg (by rw [hfk]; exact fun hc => Bool.noConfusion hc)]
  simp only [update_officials, hu]

/-- C5 amended, witnessed at a concrete input. -/
theorem c5_amended_witness :
    (update_officials 0 c5districts [] [c5good] =
      ([⟨1, "John Doe", "Representative", 1, none, none, none, none, "2020",
        "2024", "openstates", "good-1", 0⟩], none) ∧
      officialKeyPresent [⟨1, "John Doe", "Representative", 1, none, none,
        none, none, "2020", "2024", "openstates", "good-1", 0⟩] c5bad = false ∧
      districtIdExists c5districts c5bad.district_id = false) ∧
    update_officials 0 c5districts [] ([c5good] ++ c5bad :: [c5good2]) =
      ([⟨1, "John Doe", "Representative", 1, none, none, none, none, "2020",
        "2024", "openstates", "good-1", 0⟩],
        some "foreign key violation: district 99 does not exist") :=
  ⟨⟨by decide, by decide, by decide⟩,
    c5_amended 0 c5districts []
      [⟨1, "John Doe", "Representative", 1, none, none, none, none, "2020",
        "2024", "openstates", "good-1", 0⟩]
      [c5good] [c5good2] c5bad (by decide) (by decide) (by decide)⟩

/-- C6 counterexample: starting from an empty store, a first run ends
in error (the census placeholder returns `None`), a second run ends in
success — and the resulting single `full_sync` row reads status
"success" with the first run's error_message still set, because neither
the run-start upsert nor the success update clears `error_message`.
This contradicts "error_message is set iff status = error" and the
claimed error-then-success outcome. -/
theorem c6_counterexample :
    (sync_all 3 4 [] (some []) (sync_all 1 2 [] none emptyDb)).data_sources =
      [⟨"full_sync", 4, "success",
        some "TypeError: NoneType object is not iterable"⟩] := by
  decide

/-- C6 (amended): at most one `data_sources` row per source_name is
preserved by every sync run; a run ending in error sets status error
and records the message; but a later successful run only flips status
to success and leaves the stale error_message in place — error_message
is set if the LAST ERROR happened, not iff status = error. -/
theorem c6_amended (t1 t2 t3 t4 : Nat) (db : Db) (os1 : List OfficialRec)
    (census1 : Option (List DistrictRec)) (name2 : String) (em : Option String)
    (hcount : dataSourceCount db.data_sources name2 ≤ 1)
    (hany : (db.data_sources.any fun r =>
      decide (r.source_name = "full_sync")) = true)
    (hmsg : ∀ r ∈ db.data_sources, r.source_name = "full_sync" →
      r.error_message = em) :
    dataSourceCount (sync_all t1 t2 os1 census1 db).data_sources name2 ≤ 1 ∧
    (∀ r ∈ (sync_all t1 t2 os1 none db).data_sources,
      r.source_name = "full_sync" → r.status = "error" ∧
        r.error_message = some "TypeError: NoneType object is not iterable") ∧
    (∀ r ∈ (sync_all t3 t4 [] (some []) db).data_sources,
      r.source_name = "full_sync" → r.status = "success" ∧
        r.error_message = em) := by
  refine ⟨sync_all_count t1 t2 os1 census1 db name2 hcount, ?_, ?_⟩
  · intro r hr hname
    rw [sync_all_none_shape] at hr
    exact setError_fields _ "full_sync" _ r hr hname
  · intro r hr hname
    rw [sync_all_success_shape t3 t4 [] [] db rfl] at hr
    exact setSuccess_fields _ "full_sync" t4 em
      (upsertRunning_msg db.data_sources "full_sync" t3 em hany hmsg) r hr hname

/-- The starting database of the C6 witness: one `full_sync` row left
by an earlier failed run. -/
def c6wdb : Db := ⟨[], [], [], [⟨"full_sync", 1, "error", some "boom"⟩]⟩

/-- C6 amended, witnessed at a concrete input: after a successful run
over a store whose `full_sync` row carries a stale message, the row
reads success with the stale message still present. -/
theorem c6_amended_witness :
    (dataSourceCount c6wdb.data_sources "full_sync" ≤ 1 ∧
      (c6wdb.data_sources.any fun r =>
        decide (r.source_name = "full_sync")) = true ∧
      ∀ r ∈ c6wdb.data_sources, r.source_name = "full_sync" →
        r.error_message = some "boom") ∧
    ∀ r ∈ (sync_all 3 4 [] (some []) c6wdb).data_sources,
      r.source_name = "full_sync" → r.status = "success" ∧
        r.error_message = some "boom" :=
  ⟨⟨by decide, by decide, by decide⟩,
    (c6_amended 1 2 3 4 c6wdb [] none "full_sync" (some "boom")
      (by decide) (by decide) (by decide)).2.2⟩

/-- C7: for any address list within the 100-item bound, bulk lookup
returns (never throws) an ordered item list aligned with the input —
same length, i-th item carrying the i-th address — each item holding
exactly one of a success payload or an error detail; and a failure on
one address does not abort or reorder the processing of the remaining
addresses: the items after the first are exactly the bulk result of the
rest of the list from the state the first lookup left. -/
theorem c7_bulk_isolation (geocoder : String → GeocodeOutcome)
    (contains : String → GeoPoint → Bool) (now : Nat) (db : Db)
    (addresses : List String) (h : addresses.length ≤ 100) :
    bulk_lookup_representatives geocoder contains now db addresses =
      .ok (bulkCore geocoder contains now db addresses) ∧
    ((bulkCore geocoder contains now db addresses).fst).map
      (fun i => i.address) = addresses ∧
    (bulkCore geocoder contains now db addresses).fst.length =
      addresses.length ∧
    (∀ item ∈ (bulkCore geocoder contains now db addresses).fst,
      (item.result = none ∧ item.error.isSome = true) ∨
      (item.result.isSome = true ∧ item.error = none)) ∧
    ∀ a rest db0,
      ((bulkCore geocoder contains now db0 (a :: rest)).fst).tail =
        (bulkCore geocoder contains now
          (lookup_representatives geocoder contains now db0 a).snd rest).fst := by
  refine ⟨?_, (bulkCore_items geocoder contains now addresses db).1, ?_,
    (bulkCore_items geocoder contains now addresses db).2,
    fun a rest db0 => bulkCore_isolation geocoder contains now db0 a rest⟩
  · unfold bulk_lookup_representatives
    rw [if_neg (by omega)]
  · have hlen := congrArg List.length
      (bulkCore_items geocoder contains now addresses db).1
    rwa [List.length_map] at hlen

/-- C7, witnessed at a concrete input: a two-address batch in which the
first address resolves (one district contains its point) and the
second fails with NoDistrictsFound would still be processed end to end;
here we check the returned list is aligned and result-xor-error. -/
theorem c7_witness :
    (["a", "b"] : List String).length ≤ 100 ∧
    bulk_lookup_representatives gFound12 containsAll 0 emptyDb ["a", "b"] =
      .ok (bulkCore gFound12 containsAll 0 emptyDb ["a", "b"]) ∧
    ((bulkCore gFound12 containsAll 0 emptyDb ["a", "b"]).fst).map
      (fun i => i.address) = ["a", "b"] :=
  ⟨by decide,
    (c7_bulk_isolation gFound12 containsAll 0 emptyDb ["a", "b"] (by decide)).1,
    (c7_bulk_isolation gFound12 containsAll 0 emptyDb ["a", "b"] (by decide)).2.1⟩

/-- C8: the declarative `Query(..., max_length=100)` bound: an input of
more than 100 addresses is rejected up front — the handler body, and
hence every per-address lookup, never runs — while an input of at most
100 addresses is never rejected by the bound (the call returns ok, with
per-item errors only as data). -/
theorem c8_bulk_bound (geocoder : String → GeocodeOutcome)
    (contains : String → GeoPoint → Bool) (now : Nat) (db : Db)
    (addresses : List String) :
    (addresses.length > 100 →
      bulk_lookup_representatives geocoder contains now db addresses =
        .error "List should have at most 100 items") ∧
    (addresses.length ≤ 100 →
      bulk_lookup_representatives geocoder contains now db addresses =
        .ok (bulkCore geocoder contains now db addresses)) := by
  constructor
  · intro h
    unfold bulk_lookup_representatives
    rw [if_pos h]
  · intro h
    unfold bulk_lookup_representatives
    rw [if_neg (by omega)]

/-- C8, witnessed at concrete inputs: 101 addresses are rejected
before any lookup, 2 addresses are not. -/
theorem c8_bulk_bound_witness :
    (List.replicate 101 "x").length > 100 ∧
    bulk_lookup_representatives gFound12 containsAll 0 emptyDb
      (List.replicate 101 "x") = .error "List should have at most 100 items" ∧
    (["a", "b"] : List String).length ≤ 100 ∧
    bulk_lookup_representatives gFound12 containsAll 0 emptyDb ["a", "b"] =
      .ok (bulkCore gFound12 containsAll 0 emptyDb ["a", "b"]) :=
  ⟨by simp, (c8_bulk_bound gFound12 containsAll 0 emptyDb
      (List.replicate 101 "x")).1 (by simp),
    by decide, (c8_bulk_bound gFound12 containsAll 0 emptyDb ["a", "b"]).2
      (by decide)⟩

/-- C10: a lookup that misses the cache, geocodes successfully, and
then fails with NoDistrictsFound (no district contains the point) has
already committed the cache upsert: the returned state carries a fresh
CacheEntry for the normalized address even though the request errors —
the failed lookup is not atomic with respect to the cache. -/
theorem c10_error_leaves_cache (geocoder : String → GeocodeOutcome)
    (contains : String → GeoPoint → Bool) (now : Nat) (db : Db) (a : String)
    (lat lon : Int)
    (h0 : cacheLookup now db.address_cache (normalizeAddress a) = none)
    (hg : geocoder a = .found lat lon)
    (hnone : districtsContaining contains db.districts ⟨lat, lon⟩ = []) :
    (lookup_representatives geocoder contains now db a).fst =
      Except.error ⟨404, "No districts found for this address"⟩ ∧
    (lookup_representatives geocoder contains now db a).snd =
      { db with
          address_cache :=
            upsertCache db.address_cache a (normalizeAddress a) ⟨lat, lon⟩
              (now + thirtyDays) } ∧
    ∃ row ∈ (lookup_representatives geocoder contains now db a).snd.address_cache,
      row.normalized_address = normalizeAddress a ∧ row.location = ⟨lat, lon⟩ ∧
      row.expires_at = now + thirtyDays := by
  have hres : resolveLocation geocoder now db a = (Except.ok ⟨lat, lon⟩,
      { db with
          address_cache :=
            upsertCache db.address_cache a (normalizeAddress a) ⟨lat, lon⟩
              (now + thirtyDays) }) := by
    unfold resolveLocation
    rw [h0]
    unfold geocode_address
    rw [hg]
  have hnone2 : districtsContaining contains
      ({ db with
          address_cache :=
            upsertCache db.address_cache a (normalizeAddress a) ⟨lat, lon⟩
              (now + thirtyDays) } : Db).districts ⟨lat, lon⟩ = [] := hnone
  have hlook : lookup_representatives geocoder contains now db a =
      (Except.error ⟨404, "No districts found for this address"⟩,
        { db with
            address_cache :=
              upsertCache db.address_cache a (normalizeAddress a) ⟨lat, lon⟩
                (now + thirtyDays) }) := by
    simp only [lookup_representatives, hres, hnone2, List.isEmpty_nil, if_true]
  rw [hlook]
  exact ⟨rfl, rfl,
    upsertCache_mem db.address_cache a (normalizeAddress a) ⟨lat, lon⟩
      (now + thirtyDays)⟩

/-- C10, witnessed at a concrete input: the failed lookup of "a" (no
district contains any point) leaves a fresh cache entry behind. -/
theorem c10_witness :
    (cacheLookup 0 emptyDb.address_cache (normalizeAddress "a") = none ∧
      gFound12 "a" = .found 1 2 ∧
      districtsContaining containsNone emptyDb.districts ⟨1, 2⟩ = []) ∧
    (lookup_representatives gFound12 containsNone 0 emptyDb "a").fst =
      Except.error ⟨404, "No districts found for this address"⟩ ∧
    ∃ row ∈ (lookup_representatives gFound12 containsNone 0 emptyDb
        "a").snd.address_cache,
      row.normalized_address = normalizeAddress "a" ∧ row.location = ⟨1, 2⟩ ∧
      row.expires_at = 0 + thirtyDays :=
  ⟨⟨rfl, rfl, rfl⟩,
    (c10_error_leaves_cache gFound12 containsNone 0 emptyDb "a" 1 2
      rfl rfl rfl).1,
    (c10_error_leaves_cache gFound12 containsNone 0 emptyDb "a" 1 2
      rfl rfl rfl).2.2⟩
